import Mathlib

/-!
Verification of the splitzies-backend bill-split and money engine.

The Go source stores monetary values as `float64` and computes with them.
We embed `float64` values as rationals (every finite double is a rational)
and model each floating-point operation as the exact rational operation
followed by `fl`, rounding to the nearest double (53-bit significand,
ties to even; overflow and subnormals do not occur at the magnitudes
involved and are not modelled).
-/

set_option allowUnsafeReducibility true in
attribute [semireducible] Rat.add Rat.mul Rat.sub Rat.inv

set_option maxRecDepth 8000

/-- Number of binary digits of `n`, with explicit fuel so that the
definition is structural (kernel-reducible). `bitsFuel f n = 0` for `n = 0`. -/
def bitsFuel : Nat → Nat → Nat
  | 0, _ => 0
  | f + 1, n => if n = 0 then 0 else bitsFuel f (n / 2) + 1

/-- Number of binary digits of `n` (enough fuel for all magnitudes used here). -/
def bits (n : Nat) : Nat := bitsFuel 256 n

/-- `qpow2 e` is the rational `2 ^ e` for an integer exponent `e`. -/
def qpow2 (e : ℤ) : ℚ :=
  if 0 ≤ e then ((2 ^ e.toNat : ℕ) : ℚ) else 1 / ((2 ^ (-e).toNat : ℕ) : ℚ)

/-- Floor of a rational as an integer, computed directly from the
numerator and (positive) denominator. -/
def qfloor (q : ℚ) : ℤ := Int.ediv q.num q.den

/-- Round a rational to the nearest integer, ties to even
(IEEE 754 default rounding of the significand). -/
def roundHalfEven (x : ℚ) : ℤ :=
  let n := qfloor x
  let f := x - n
  if f < 1 / 2 then n
  else if 1 / 2 < f then n + 1
  else if n % 2 = 0 then n else n + 1

/-- `floorLog2 q` is `⌊log₂ q⌋` for `q > 0` (and `0` on nonpositive input),
computed from the bit lengths of numerator and denominator. -/
def floorLog2 (q : ℚ) : ℤ :=
  if q ≤ 0 then 0
  else
    let e0 : ℤ := (bits q.num.toNat : ℤ) - (bits q.den : ℤ)
    if q < qpow2 e0 then e0 - 1 else e0

/-- `fl q` is the IEEE 754 binary64 value nearest to `q` (ties to even),
returned as a rational: the model of rounding a real result back into a
Go `float64`. -/
def fl (q : ℚ) : ℚ :=
  if q = 0 then 0
  else
    let a := if q < 0 then -q else q
    let e := floorLog2 a
    let m := roundHalfEven (a * qpow2 (52 - e))
    let r := (m : ℚ) * qpow2 (e - 52)
    if q < 0 then -r else r

/-- Go `float64` addition: exact sum, rounded to the nearest double. -/
def fadd (a b : ℚ) : ℚ := fl (a + b)

/-- Go `float64` multiplication: exact product, rounded to the nearest double. -/
def fmul (a b : ℚ) : ℚ := fl (a * b)

/-- Go `float64` division: exact quotient, rounded to the nearest double. -/
def fdiv (a b : ℚ) : ℚ := fl (a / b)

/-- Go `math.Round`: round half away from zero, composed with the `int(...)`
conversion of the resulting integral float (which is exact). -/
def goRound (x : ℚ) : ℤ :=
  if 0 ≤ x then qfloor (x + 1 / 2) else -qfloor (-x + 1 / 2)

/-!
Data model (`persistence` package). `float64` monetary fields are embedded
as `ℚ`; `CreatedAt` timestamps are not carried as data — instead every list
of rows is kept in `created_at` order, which is the order the SQL readers
(`GetReceiptAssignments`, `GetReceiptUsers`: `ORDER BY created_at ASC`)
return and the order in which rows were inserted.
-/

/-- `persistence.ReceiptItem` (part_004): a receipt item row. -/
structure ReceiptItem where
  ID : String
  ReceiptID : String
  Name : String
  Quantity : Int
  TotalPrice : ℚ
  PricePerItem : ℚ
deriving DecidableEq

/-- `persistence.ReceiptUserItem` (receipt_user.go): the assignment of an
item to a user. `AmountOwed = none` means equal split; `some` is a custom
amount. -/
structure ReceiptUserItem where
  ID : String
  ReceiptUserID : String
  ReceiptItemID : String
  AmountOwed : Option ℚ
deriving DecidableEq

/-- `transport.BillSplitResult` (part_008): Go maps are embedded as total
functions `String → ℚ` defaulting to `0`, matching Go's zero value on a
missing-key read. `AmountByUserItem` is keyed by `userID ++ ":" ++ itemID`. -/
structure BillSplitResult where
  AmountByUserItem : String → ℚ
  UserTotal : String → ℚ

/-- The `itemPrice` map of `ComputeBillSplit`: price of each item by ID
(`itemPrice[item.ID] = item.TotalPrice`, later duplicates overwriting). -/
def itemPrice (items : List ReceiptItem) : String → ℚ :=
  items.foldl (fun m item => fun id => if id = item.ID then item.TotalPrice else m id)
    (fun _ => 0)

/-- The `itemUserOrder` map of `ComputeBillSplit`: for each item ID, the
user IDs assigned to it, in assignment order (`append` per assignment). -/
def itemUserOrder (assignments : List ReceiptUserItem) : String → List String :=
  assignments.foldl
    (fun m a => fun id =>
      if id = a.ReceiptItemID then m id ++ [a.ReceiptUserID] else m id)
    (fun _ => [])

/-- The key set of the `itemUserOrder` map: the distinct item IDs occurring
in the assignments. Go iterates its maps in an unspecified order; the split
loop writes a disjoint set of `userID:itemID` keys for each item, so the
resulting map does not depend on that order and one fixed enumeration
suffices. -/
def itemKeys (assignments : List ReceiptUserItem) : List String :=
  (assignments.map (fun a => a.ReceiptItemID)).dedup

/-- `totalCents := int(math.Round(totalPrice * 100))` (part_008 line 261):
the float product rounded half away from zero. The `int(...)` conversion of
the integral float is exact. -/
def totalCents (price : ℚ) : ℤ := goRound (fmul price 100)

/-- Lines 262-268 of part_008: the per-position minor-unit allocations for
one item with minor-unit total `T` split among `n` users. Go's integer
division truncates toward zero (`Int.tdiv`); position `i` receives
`baseCents + 1` exactly when `i < remainder`. -/
def splitCents (T : ℤ) (n : ℕ) : List ℤ :=
  (List.range n).map fun i : ℕ =>
    let base := Int.tdiv T n
    if (i : ℤ) < T - base * n then base + 1 else base

/-- The writes the inner loop of `ComputeBillSplit` performs into
`amountByUserItem` for one item: key `userID ++ ":" ++ itemID`, value
`float64(cents) / 100`. For `us = []` the loop body is skipped
(`continue`), and indeed no writes are produced. -/
def itemAllocs (price : ℚ) (us : List String) (it : String) : List (String × ℚ) :=
  (us.zip ((splitCents (totalCents price) us.length).map fun c : ℤ => fdiv (c : ℚ) 100)).map
    fun p => (p.1 ++ ":" ++ it, p.2)

/-- All writes into `amountByUserItem`, item by item. -/
def allWrites (items : List ReceiptItem) (assignments : List ReceiptUserItem) :
    List (String × ℚ) :=
  (itemKeys assignments).flatMap fun it =>
    itemAllocs (itemPrice items it) (itemUserOrder assignments it) it

/-- The `amountByUserItem` map after the split loop of `ComputeBillSplit`. -/
def amountByUserItem (items : List ReceiptItem) (assignments : List ReceiptUserItem) :
    String → ℚ :=
  (allWrites items assignments).foldl
    (fun m kv => fun k => if k = kv.1 then kv.2 else m k) (fun _ => 0)

/-- The `userTotal` map of `ComputeBillSplit`: the second loop iterates the
assignments in order and does `userTotal[a.ReceiptUserID] += amountByUserItem[key]`
in `float64` arithmetic. -/
def userTotal (items : List ReceiptItem) (assignments : List ReceiptUserItem) :
    String → ℚ :=
  assignments.foldl
    (fun m a => fun u =>
      if u = a.ReceiptUserID then
        fadd (m a.ReceiptUserID)
          (amountByUserItem items assignments (a.ReceiptUserID ++ ":" ++ a.ReceiptItemID))
      else m u)
    (fun _ => 0)

/-- `transport.ComputeBillSplit` (part_008 lines 243-284). -/
def ComputeBillSplit (items : List ReceiptItem) (assignments : List ReceiptUserItem) :
    BillSplitResult :=
  { AmountByUserItem := amountByUserItem items assignments
    UserTotal := userTotal items assignments }

/-- Concrete receipt for the C2 witness: one 10.00 item. -/
def c2Items : List ReceiptItem := [⟨"i1", "r1", "Pizza", 1, 10, 10⟩]

/-- Concrete assignments for the C2 witness: three users on the item, in
creation order. -/
def c2As : List ReceiptUserItem :=
  [⟨"a1", "u1", "i1", none⟩, ⟨"a2", "u2", "i1", none⟩, ⟨"a3", "u3", "i1", none⟩]

/-- Modelled from the spec: the ISO 4217 table of the external go-money
dependency (`money.GetCurrency(code).Fraction`) is not part of this
repository. Per the `money` package doc comment ("USD=2, KWD=3, JPY=0
decimal places") and spec §3/§4.1, it is modelled as a partial lookup of
the minor-unit count, `none` for unrecognised codes. -/
def getCurrencyFraction (code : String) : Option ℕ :=
  if code = "USD" then some 2
  else if code = "EUR" then some 2
  else if code = "GBP" then some 2
  else if code = "KWD" then some 3
  else if code = "JPY" then some 0
  else none

/-- The whitespace test of Go's `strings.TrimSpace`, restricted to the
ASCII space characters (currency codes are ASCII). -/
def isSpaceChar (c : Char) : Bool :=
  c = ' ' || c = '\t' || c = '\n' || c = '\r'

/-- Go `strings.TrimSpace`, modelled on the character list (ASCII inputs). -/
def trimSpace (s : String) : String :=
  String.mk (((s.data.dropWhile isSpaceChar).reverse.dropWhile isSpaceChar).reverse)

/-- Go `strings.ToUpper`, modelled on the character list (ASCII inputs). -/
def toUpperStr (s : String) : String :=
  String.mk (s.data.map fun c =>
    if 'a' ≤ c && c ≤ 'z' then Char.ofNat (c.toNat - 32) else c)

/-- The currency-code selection shared by `DecimalPlaces` and `Round`
(part_003): `"USD"` when the pointer is nil or the trimmed string is empty,
otherwise `strings.ToUpper` of the (untrimmed) string. -/
def currencyCode (currency : Option String) : String :=
  match currency with
  | none => "USD"
  | some s => if trimSpace s = "" then "USD" else toUpperStr s

/-- `money.DecimalPlaces` (part_003 lines 26-36): the currency's minor-unit
count, defaulting to 2 for nil, blank or unknown currencies. -/
def DecimalPlaces (currency : Option String) : ℕ :=
  match getCurrencyFraction (currencyCode currency) with
  | none => 2
  | some f => f

/-- `money.Round` (part_003 lines 38-47). Modelled from the spec: the body
is the external go-money composite `NewFromFloat / Round / AsMajorUnits`;
per the function's doc comment ("rounds a value to the currency's decimal
places"), the repository's own tests (money_test.go) and spec §4.1 ("a true
decimal round"), it is decimal rounding of the value at the currency's
minor-unit count, half away from zero. -/
def Round (value : ℚ) (currency : Option String) : ℚ :=
  (goRound (value * 10 ^ DecimalPlaces currency) : ℚ) / 10 ^ DecimalPlaces currency

/-- The minor-unit conversion claimed by the spec (§4.2 step 2): standard
rounding of `price * 10 ^ decimalPlaces(currency)`. Stated from the spec's
words, for comparison with the code's `totalCents`. -/
def specTotalMinorUnits (price : ℚ) (currency : Option String) : ℤ :=
  goRound (price * 10 ^ DecimalPlaces currency)

/-- Concrete receipt for the C4 counterexample: three items priced 0.10
(the `float64` nearest to 1/10, as stored by the Go program). -/
def c4Items : List ReceiptItem :=
  [⟨"i1", "r1", "Tea", 1, fl (1 / 10), fl (1 / 10)⟩,
   ⟨"i2", "r1", "Gum", 1, fl (1 / 10), fl (1 / 10)⟩,
   ⟨"i3", "r1", "Mint", 1, fl (1 / 10), fl (1 / 10)⟩]

/-- Concrete assignments for the C4 counterexample: one user on all three
items. -/
def c4As : List ReceiptUserItem :=
  [⟨"a1", "u1", "i1", none⟩, ⟨"a2", "u1", "i2", none⟩, ⟨"a3", "u1", "i3", none⟩]

/-- `transport.ReceiptItem` (errors.go lines 49-54): a request item with
optional price fields. -/
structure RequestReceiptItem where
  Name : String
  Quantity : Int
  TotalPrice : Option ℚ
  PricePerItem : Option ℚ
deriving DecidableEq

/-- `persistence.ReceiptItemDB` (part_004): the validated item shape. -/
structure ReceiptItemDB where
  Name : String
  Quantity : Int
  TotalPrice : ℚ
  PricePerItem : ℚ
deriving DecidableEq

/-- The validation failures of `convertReceiptItems` (errors.go lines
71-120), tagged with the 1-based item number used in the Go error text. -/
inductive ConvertError where
  | nameRequired (i : ℕ)
  | quantityNotPositive (i : ℕ)
  | priceRequired (i : ℕ)
deriving DecidableEq

deriving instance DecidableEq for Except

/-- The loop of `transport.convertReceiptItems` from 1-based index `i`:
name must be non-empty, quantity positive, at least one price present; a
missing total is derived as `pricePerItem * float64(quantity)` and a
missing per-item price as `totalPrice / float64(quantity)`, in `float64`
arithmetic (the `float64(quantity)` conversion is exact at these
magnitudes). The first failing item aborts the whole conversion. -/
def convertItemsFrom (i : ℕ) :
    List RequestReceiptItem → Except ConvertError (List ReceiptItemDB)
  | [] => .ok []
  | item :: rest =>
    if item.Name = "" then .error (.nameRequired i)
    else if item.Quantity ≤ 0 then .error (.quantityNotPositive i)
    else
      match item.TotalPrice, item.PricePerItem with
      | none, none => .error (.priceRequired i)
      | none, some p =>
        match convertItemsFrom (i + 1) rest with
        | .ok l => .ok (⟨item.Name, item.Quantity, fmul p (item.Quantity : ℚ), p⟩ :: l)
        | .error e => .error e
      | some t, none =>
        match convertItemsFrom (i + 1) rest with
        | .ok l => .ok (⟨item.Name, item.Quantity, t, fdiv t (item.Quantity : ℚ)⟩ :: l)
        | .error e => .error e
      | some t, some p =>
        match convertItemsFrom (i + 1) rest with
        | .ok l => .ok (⟨item.Name, item.Quantity, t, p⟩ :: l)
        | .error e => .error e

/-- `transport.convertReceiptItems` (errors.go lines 71-120). -/
def convertReceiptItems (items : List RequestReceiptItem) :
    Except ConvertError (List ReceiptItemDB) :=
  convertItemsFrom 1 items

/-- `persistence.ReceiptUser` (receipt_user.go): a participant row. -/
structure ReceiptUser where
  ID : String
  ReceiptID : String
  Name : String
deriving DecidableEq

/-- The relational state touched by the assignment operation: participant,
item and assignment rows, each list in insertion (`created_at`) order. -/
structure DBState where
  users : List ReceiptUser
  items : List ReceiptItem
  assignments : List ReceiptUserItem
deriving DecidableEq

/-- The failure outcomes of `AssignItemToUser`. `verifyFailed` is the
generic "failed to verify user and item" error, wrapping the driver's
NULL-scan failure when the verify row carries a NULL receipt id.
`notFound` is the "receipt user or item not found" error of the
`strings.Contains(err, "no rows")` branches; for the verify query that
branch is dead code (see `AssignItemToUser`), so the model never produces
it — it is kept to state how the observed error differs from it.
`crossReceipt` is "user and item must belong to the same receipt";
`readBackFailed` is the post-upsert re-read finding no row
("failed to get receipt user item data"). -/
inductive AssignError where
  | verifyFailed
  | notFound
  | crossReceipt
  | readBackFailed
deriving DecidableEq

/-- The scalar subquery `SELECT receipt_id FROM receipt_users WHERE id = $1`
(IDs are primary keys, so the first match is the row). A missing row makes
the subquery yield NULL, modelled as `none`. -/
def lookupUserReceipt (db : DBState) (userID : String) : Option String :=
  (db.users.find? fun u => u.ID == userID).map fun u => u.ReceiptID

/-- The scalar subquery `SELECT receipt_id FROM receipt_items WHERE id = $2`. -/
def lookupItemReceipt (db : DBState) (itemID : String) : Option String :=
  (db.items.find? fun i => i.ID == itemID).map fun i => i.ReceiptID

/-- The upsert `INSERT ... ON CONFLICT (receipt_user_id, receipt_item_id)
DO UPDATE SET amount_owed = EXCLUDED.amount_owed`: on conflict the existing
row keeps its `id` and `created_at` and only its amount is replaced;
otherwise a new row with the fresh `assignmentID` is appended. -/
def upsertAssignment (db : DBState) (assignmentID userID itemID : String)
    (amountOwed : Option ℚ) : DBState :=
  if db.assignments.any fun a => a.ReceiptUserID == userID && a.ReceiptItemID == itemID then
    { db with assignments := db.assignments.map fun a =>
        if a.ReceiptUserID == userID && a.ReceiptItemID == itemID then
          { a with AmountOwed := amountOwed }
        else a }
  else
    { db with assignments := db.assignments ++ [⟨assignmentID, userID, itemID, amountOwed⟩] }

/-- `persistence.Client.AssignItemToUser` (receipt_user.go lines 233-286);
`assignmentID` stands for the freshly generated ULID. The verify query is
one SELECT of two scalar subqueries with no FROM clause: it always returns
exactly one row, with a NULL column for a missing user or item. Scanning
NULL into the plain `string` destinations fails with a NULL-scan error
whose text does not contain "no rows", so the code returns the generic
"failed to verify user and item" error (`verifyFailed`) and its
"receipt user or item not found" branch is unreachable on this path. When
both rows exist but name different receipts, the cross-receipt error is
returned. In both failure cases the error precedes any write. Otherwise
the assignment is upserted and the row re-read by the fresh `assignmentID`
(`SELECT amount_owed FROM receipt_user_items WHERE id = $1`) to build the
returned record: a read that finds no row when the upsert took the
conflict path, in which case the error is returned after the write. -/
def AssignItemToUser (db : DBState) (assignmentID receiptUserID receiptItemID : String)
    (amountOwed : Option ℚ) : DBState × Except AssignError ReceiptUserItem :=
  match lookupUserReceipt db receiptUserID, lookupItemReceipt db receiptItemID with
  | some userReceiptID, some itemReceiptID =>
    if userReceiptID ≠ itemReceiptID then (db, .error .crossReceipt)
    else
      let db2 := upsertAssignment db assignmentID receiptUserID receiptItemID amountOwed
      match db2.assignments.find? fun a => a.ID == assignmentID with
      | some row =>
        (db2, .ok ⟨assignmentID, receiptUserID, receiptItemID, row.AmountOwed⟩)
      | none => (db2, .error .readBackFailed)
  | _, _ => (db, .error .verifyFailed)

/-- Concrete state for the C8 run: one receipt with one participant and one
item, no assignments yet. -/
def c8Db : DBState :=
  ⟨[⟨"u1", "r1", "Ann"⟩], [⟨"i1", "r1", "Pizza", 1, 10, 10⟩], []⟩

/-- Concrete state for the C9 run: two receipts, each with a participant
and an item. -/
def c9Db : DBState :=
  ⟨[⟨"u1", "r1", "Ann"⟩, ⟨"u2", "r2", "Bob"⟩],
   [⟨"i1", "r1", "Pizza", 1, 10, 10⟩, ⟨"i2", "r2", "Cake", 1, 8, 8⟩], []⟩

/-- Everything of an assignment except its custom amount. Two assignment
lists are "identical except for the amount_owed fields" when their
`stripAmount` images coincide. -/
def stripAmount (a : ReceiptUserItem) : String × String × String :=
  (a.ID, a.ReceiptUserID, a.ReceiptItemID)

/-- Concrete items for the C10 witness. -/
def c10Items : List ReceiptItem := [⟨"i1", "r1", "Pizza", 1, 10, 10⟩]

/-- Concrete assignments for the C10 witness: no custom amounts. -/
def c10As : List ReceiptUserItem :=
  [⟨"a1", "u1", "i1", none⟩, ⟨"a2", "u2", "i1", none⟩]

/-- The same assignments with custom amounts 9.99 and 0.01 stored. -/
def c10Bs : List ReceiptUserItem :=
  [⟨"a1", "u1", "i1", some (999 / 100)⟩, ⟨"a2", "u2", "i1", some (1 / 100)⟩]

example : fl (1 / 10) = 3602879701896397 / 36028797018963968 := by decide

example : fadd (fadd (fl (1 / 10)) (fl (1 / 10))) (fl (1 / 10)) ≠ (3 : ℚ) / 10 := by decide

example : goRound (fmul (fl (1 / 10)) 100) = 10 := by decide

example : Int.tdiv (-7) 2 = -3 := by decide

example :
    (ComputeBillSplit [⟨"i1", "r1", "Pizza", 1, 10, 10⟩]
      [⟨"a1", "u1", "i1", none⟩, ⟨"a2", "u2", "i1", none⟩, ⟨"a3", "u3", "i1", none⟩]).AmountByUserItem
      "u1:i1" = fdiv 334 100 := by decide

example :
    (ComputeBillSplit [⟨"i1", "r1", "Pizza", 1, 10, 10⟩]
      [⟨"a1", "u1", "i1", none⟩, ⟨"a2", "u2", "i1", none⟩, ⟨"a3", "u3", "i1", none⟩]).UserTotal
      "u2" = fdiv 333 100 := by decide

/-- If `n ≤ r`, every position of the split gets `b + 1`. -/
lemma sum_ite_lt_of_le (b r : ℤ) :
    ∀ n : ℕ, (n : ℤ) ≤ r →
      (((List.range n).map fun i : ℕ => if (i : ℤ) < r then b + 1 else b).sum = n * (b + 1))
  | 0, _ => by simp
  | n + 1, h => by
    have hn : (n : ℤ) ≤ r := by push_cast at h ⊢; omega
    rw [List.range_succ, List.map_append, List.sum_append, sum_ite_lt_of_le b r n hn]
    have hlt : ((n : ℤ) < r) := by push_cast at h; omega
    simp only [List.map_cons, List.map_nil, List.sum_cons, List.sum_nil, if_pos hlt]
    push_cast
    ring

/-- If `0 ≤ r ≤ n`, the first `r` positions get `b + 1` and the rest `b`,
so the total is `n * b + r`. -/
lemma sum_ite_lt (b r : ℤ) :
    ∀ n : ℕ, 0 ≤ r → r ≤ (n : ℤ) →
      (((List.range n).map fun i : ℕ => if (i : ℤ) < r then b + 1 else b).sum = n * b + r)
  | 0, h0, hn => by
    have : r = 0 := le_antisymm (by exact_mod_cast hn) h0
    simp [this]
  | n + 1, h0, hn => by
    by_cases hc : r ≤ (n : ℤ)
    · rw [List.range_succ, List.map_append, List.sum_append, sum_ite_lt b r n h0 hc]
      have hge : ¬ ((n : ℤ) < r) := by omega
      simp only [List.map_cons, List.map_nil, List.sum_cons, List.sum_nil, if_neg hge]
      push_cast
      ring
    · have hr : r = (n : ℤ) + 1 := by omega
      rw [sum_ite_lt_of_le b r (n + 1) (by push_cast; omega)]
      rw [hr]
      push_cast
      ring

/-- C1 (split conservation): for every non-negative minor-unit total `T`
and every `n ≥ 1`, the `n` per-participant minor-unit allocations computed
by the split loop of `ComputeBillSplit` sum to exactly `T`. -/
theorem splitCents_sum (T : ℤ) (n : ℕ) (hT : 0 ≤ T) (hn : 1 ≤ n) :
    (splitCents T n).sum = T := by
  have hn0 : (0 : ℤ) < (n : ℤ) := by exact_mod_cast hn
  have hdiv : Int.tdiv T n = T / (n : ℤ) :=
    Int.tdiv_eq_ediv hT (by positivity)
  have hr : T - Int.tdiv T n * n = T % (n : ℤ) := by
    rw [hdiv, Int.emod_def]; ring
  have h0 : 0 ≤ T % (n : ℤ) := Int.emod_nonneg T (by omega)
  have h1 : T % (n : ℤ) < (n : ℤ) := Int.emod_lt_of_pos T hn0
  unfold splitCents
  simp only [hr]
  rw [sum_ite_lt (Int.tdiv T n) (T % (n : ℤ)) n h0 (le_of_lt h1), hdiv]
  rw [Int.emod_def]
  ring

/-- Witness for `splitCents_sum`: `T = 10` cents split three ways. -/
theorem splitCents_sum_witness :
    (0 : ℤ) ≤ 10 ∧ 1 ≤ 3 ∧ (splitCents 10 3).sum = 10 :=
  ⟨by decide, by decide, splitCents_sum 10 3 (by decide) (by decide)⟩

/-- A fold of map-updates never changes the value at a key that is not
written. -/
lemma foldl_update_of_not_mem :
    ∀ (writes : List (String × ℚ)) (m : String → ℚ) (k : String),
      k ∉ writes.map Prod.fst →
      (writes.foldl (fun m kv => fun x => if x = kv.1 then kv.2 else m x) m) k = m k
  | [], _, _, _ => rfl
  | w :: ws, m, k, h => by
    simp only [List.map_cons, List.mem_cons, not_or] at h
    rw [List.foldl_cons, foldl_update_of_not_mem ws _ k h.2]
    simp [h.1]

/-- With pairwise-distinct keys, a fold of map-updates ends with each
written key holding the value written for it. -/
lemma foldl_update_of_mem :
    ∀ (writes : List (String × ℚ)) (m : String → ℚ) (k : String) (v : ℚ),
      (writes.map Prod.fst).Nodup → (k, v) ∈ writes →
      (writes.foldl (fun m kv => fun x => if x = kv.1 then kv.2 else m x) m) k = v
  | w :: ws, m, k, v, hnd, hmem => by
    simp only [List.map_cons, List.nodup_cons] at hnd
    rcases List.mem_cons.mp hmem with h | h
    · cases h
      rw [List.foldl_cons, foldl_update_of_not_mem ws _ k hnd.1]
      simp
    · exact foldl_update_of_mem ws _ k v hnd.2 h

/-- The `itemUserOrder` fold, characterised: starting from `m`, the entry at
`it` is `m it` followed by the user IDs of the assignments to `it`, in
assignment order. -/
lemma itemUserOrder_aux :
    ∀ (as : List ReceiptUserItem) (m : String → List String) (it : String),
      (as.foldl
        (fun m a => fun id =>
          if id = a.ReceiptItemID then m id ++ [a.ReceiptUserID] else m id) m) it
        = m it ++ ((as.filter fun a => decide (it = a.ReceiptItemID)).map
            fun a => a.ReceiptUserID)
  | [], m, it => by simp
  | a :: as, m, it => by
    rw [List.foldl_cons, itemUserOrder_aux as _ it]
    by_cases h : it = a.ReceiptItemID
    · simp [h, List.filter_cons, List.append_assoc]
    · simp [h, List.filter_cons]

/-- `itemUserOrder as it` is exactly the user IDs assigned to `it`, in
assignment order. -/
lemma itemUserOrder_eq (as : List ReceiptUserItem) (it : String) :
    itemUserOrder as it
      = (as.filter fun a => decide (it = a.ReceiptItemID)).map fun a => a.ReceiptUserID := by
  simpa [itemUserOrder] using itemUserOrder_aux as (fun _ => []) it

/-- An item with at least one assignment occurs among the `itemUserOrder`
keys enumerated by the split loop. -/
lemma mem_itemKeys (as : List ReceiptUserItem) (it : String)
    (h : itemUserOrder as it ≠ []) : it ∈ itemKeys as := by
  rw [itemUserOrder_eq] at h
  obtain ⟨u, hu⟩ := List.exists_mem_of_ne_nil _ h
  obtain ⟨a, ha, -⟩ := List.mem_map.mp hu
  have ha2 := List.mem_filter.mp ha
  exact List.mem_dedup.mpr
    (List.mem_map.mpr ⟨a, ha2.1, (of_decide_eq_true ha2.2).symm⟩)

@[simp] lemma length_splitCents (T : ℤ) (n : ℕ) : (splitCents T n).length = n := by
  simp [splitCents]

lemma get_splitCents (T : ℤ) (n i : ℕ) (h : i < (splitCents T n).length) :
    (splitCents T n).get ⟨i, h⟩ =
      if (i : ℤ) < T - Int.tdiv T n * n then Int.tdiv T n + 1 else Int.tdiv T n := by
  simp [splitCents]

/-- C2 (deterministic remainder distribution): in `ComputeBillSplit`, for an
item `it` whose assigned users (in first-assigned order) are
`itemUserOrder as it`, the user at position `i` is allocated
`baseCents + 1` minor units exactly when `i < remainder` and `baseCents`
otherwise, where `baseCents = totalCents tdiv n` and
`remainder = totalCents - baseCents * n`. The hypothesis `hnd` states that
the `userID:itemID` write keys are pairwise distinct, which the database
UNIQUE constraint on `(receipt_user_id, receipt_item_id)` guarantees for
ID strings free of collisions. Determinism is immediate: the embedding is
a pure function of `items` and `as`. -/
theorem ComputeBillSplit_remainder
    (items : List ReceiptItem) (as : List ReceiptUserItem) (it : String) (i : ℕ)
    (hi : i < (itemUserOrder as it).length)
    (hnd : ((allWrites items as).map Prod.fst).Nodup) :
    (ComputeBillSplit items as).AmountByUserItem
        ((itemUserOrder as it).get ⟨i, hi⟩ ++ ":" ++ it) =
      fdiv ((if (i : ℤ) < totalCents (itemPrice items it) -
            Int.tdiv (totalCents (itemPrice items it)) ((itemUserOrder as it).length) *
              ((itemUserOrder as it).length)
          then Int.tdiv (totalCents (itemPrice items it)) ((itemUserOrder as it).length) + 1
          else Int.tdiv (totalCents (itemPrice items it)) ((itemUserOrder as it).length) : ℤ) : ℚ)
        100 := by
  have hne : itemUserOrder as it ≠ [] :=
    List.ne_nil_of_length_pos (Nat.lt_of_le_of_lt (Nat.zero_le i) hi)
  show amountByUserItem items as _ = _
  unfold amountByUserItem
  apply foldl_update_of_mem _ _ _ _ hnd
  unfold allWrites
  apply List.mem_flatMap.mpr
  refine ⟨it, mem_itemKeys as it hne, ?_⟩
  unfold itemAllocs
  apply List.mem_map.mpr
  have hiz : i < ((itemUserOrder as it).zip
      ((splitCents (totalCents (itemPrice items it)) (itemUserOrder as it).length).map
        fun c : ℤ => fdiv (c : ℚ) 100)).length := by
    simpa [List.length_zip] using hi
  refine ⟨_, List.get_mem _ i hiz, ?_⟩
  rw [List.get_zip]
  simp only [List.get_map]
  rw [get_splitCents]

/-- Witness for `ComputeBillSplit_remainder`: with a 10.00 item split three
ways, the first-assigned user is allocated 334 cents. -/
theorem ComputeBillSplit_remainder_witness :
    (0 < (itemUserOrder c2As "i1").length) ∧
      ((allWrites c2Items c2As).map Prod.fst).Nodup ∧
      (ComputeBillSplit c2Items c2As).AmountByUserItem ("u1" ++ ":" ++ "i1") =
        fdiv 334 100 := by
  refine ⟨by decide, by decide, ?_⟩
  have h := ComputeBillSplit_remainder c2Items c2As "i1" 0 (by decide) (by decide)
  have e : (itemUserOrder c2As "i1").get ⟨0, by decide⟩ = "u1" := by decide
  rw [e] at h
  rw [h]
  decide

example : DecimalPlaces (some "usd") = 2 := by decide

example : DecimalPlaces (some "KWD") = 3 := by decide

example : DecimalPlaces (some " KWD") = 2 := by decide

example : DecimalPlaces none = 2 := by decide

example : Round (fl (1295000076293945 / 100000000000000)) (some "USD") = 1295 / 100 := by decide

example : Round (2195 / 100) (some "USD") = 2195 / 100 := by decide

example : Round (fl (2195 / 100)) (some "USD") = 2195 / 100 := by decide

example : Round (fl (123 / 10)) (some "JPY") = 12 := by decide

/-- C3 counterexample: for the 3-decimal currency KWD and item price 1.25,
`ComputeBillSplit`'s conversion (`totalCents`, a fixed factor of 100)
yields 125 minor units, while the claimed currency-aware conversion yields
1250 — the code does not use `10 ^ decimalPlaces(currency)`. -/
theorem totalCents_ne_specTotalMinorUnits :
    totalCents (5 / 4) = 125 ∧ specTotalMinorUnits (5 / 4) (some "KWD") = 1250 ∧
      totalCents (5 / 4) ≠ specTotalMinorUnits (5 / 4) (some "KWD") := by decide

/-- C3 amended: `ComputeBillSplit` always converts at a fixed factor of 100
(two decimals), ignoring the receipt currency; for a currency whose
minor-unit count is 2 and a price whose float product `price * 100` is
exact, this agrees with the spec's `price * 10 ^ decimalPlaces` formula. -/
theorem totalCents_eq_spec_of_two_decimals (price : ℚ) (currency : Option String)
    (h2 : DecimalPlaces currency = 2) (hrep : fl (price * 100) = price * 100) :
    totalCents price = specTotalMinorUnits price currency := by
  unfold totalCents specTotalMinorUnits fmul
  rw [hrep, h2]
  norm_num

/-- Witness for `totalCents_eq_spec_of_two_decimals` at price 1.25, USD. -/
theorem totalCents_eq_spec_witness :
    DecimalPlaces (some "USD") = 2 ∧ fl ((5 / 4 : ℚ) * 100) = (5 / 4 : ℚ) * 100 ∧
      totalCents (5 / 4) = specTotalMinorUnits (5 / 4) (some "USD") :=
  ⟨by decide, by decide,
    totalCents_eq_spec_of_two_decimals (5 / 4) (some "USD") (by decide) (by decide)⟩

/-- `qfloor` agrees with the mathematical floor on `ℚ`. -/
lemma qfloor_eq (q : ℚ) : qfloor q = ⌊q⌋ := by rw [Rat.floor_def]; rfl

/-- `goRound` (Go `math.Round`) fixes the integers. -/
lemma goRound_intCast (k : ℤ) : goRound (k : ℚ) = k := by
  unfold goRound
  by_cases h : (0 : ℚ) ≤ (k : ℚ)
  · rw [if_pos h, qfloor_eq, add_comm, Int.floor_add_int]
    norm_num
  · rw [if_neg h, qfloor_eq]
    have hk : -(k : ℚ) = ((-k : ℤ) : ℚ) := by push_cast; ring
    rw [hk, add_comm, Int.floor_add_int]
    norm_num

/-- C5 (rounding idempotence): for every finite value `x` and every
currency `c` — nil and unknown codes included — rounding twice equals
rounding once: `Round (Round x c) c = Round x c`. -/
theorem Round_idempotent (x : ℚ) (c : Option String) :
    Round (Round x c) c = Round x c := by
  unfold Round
  have hD : ((10 : ℚ) ^ DecimalPlaces c) ≠ 0 := by positivity
  rw [div_mul_cancel₀ _ hD, goRound_intCast]

/-- C6 (lenient currency default): for a nil, blank, or unrecognised
currency code, `DecimalPlaces` returns 2 and `Round` rounds to two decimal
places. Both are total functions of their inputs — the model has no
failure path, matching the code, which signals no error on any input. -/
theorem DecimalPlaces_Round_default (c : Option String) (x : ℚ)
    (h : c = none ∨ (∃ s, c = some s ∧ trimSpace s = "") ∨
      getCurrencyFraction (currencyCode c) = none) :
    DecimalPlaces c = 2 ∧ Round x c = (goRound (x * 100) : ℚ) / 100 := by
  have h2 : DecimalPlaces c = 2 := by
    rcases h with h | ⟨s, hs, hblank⟩ | h
    · rw [h]; decide
    · have hcc : currencyCode (some s) = "USD" := by
        show (if trimSpace s = "" then "USD" else toUpperStr s) = "USD"
        rw [if_pos hblank]
      rw [hs]
      unfold DecimalPlaces
      rw [hcc]
      decide
    · unfold DecimalPlaces
      rw [h]
  refine ⟨h2, ?_⟩
  unfold Round
  rw [h2]
  norm_num

/-- Witness for `DecimalPlaces_Round_default` at the unknown code "XXX". -/
theorem DecimalPlaces_Round_default_witness :
    getCurrencyFraction (currencyCode (some "XXX")) = none ∧
      DecimalPlaces (some "XXX") = 2 ∧
      Round (7 / 2) (some "XXX") = (goRound ((7 : ℚ) / 2 * 100) : ℚ) / 100 :=
  ⟨by decide,
    DecimalPlaces_Round_default (some "XXX") (7 / 2) (Or.inr (Or.inr (by decide)))⟩

/-- C4 counterexample: each 0.10 item converts to 10 minor units, so the
claimed minor-unit summation would give 30 cents and a single final
conversion `30 / 100` (exactly, or as a float `fdiv 30 100`). The code
instead sums the per-item `float64` major-unit amounts
(`userTotal[u] += amountByUserItem[key]`), and the accumulated total
differs from both: `0.1 + 0.1 + 0.1 ≠ 0.3` in `float64`. -/
theorem userTotal_not_minor_unit_sum :
    totalCents (fl (1 / 10)) = 10 ∧
      (ComputeBillSplit c4Items c4As).UserTotal "u1" ≠ (30 : ℚ) / 100 ∧
      (ComputeBillSplit c4Items c4As).UserTotal "u1" ≠ fdiv 30 100 := by decide

/-- Reading user `u` out of the `userTotal` accumulation equals folding
`fadd` over the amounts of `u`'s assignments, in assignment order. -/
lemma userTotal_foldl (amt : ReceiptUserItem → ℚ) :
    ∀ (as : List ReceiptUserItem) (m : String → ℚ) (u : String),
      (as.foldl (fun m a => fun x =>
        if x = a.ReceiptUserID then fadd (m a.ReceiptUserID) (amt a) else m x) m) u =
      ((as.filter fun a => decide (a.ReceiptUserID = u)).map amt).foldl fadd (m u)
  | [], _, _ => rfl
  | a :: as, m, u => by
    rw [List.foldl_cons, userTotal_foldl amt as _ u]
    by_cases h : a.ReceiptUserID = u
    · simp [List.filter_cons, h]
    · have hne : ¬ (u = a.ReceiptUserID) := fun hh => h hh.symm
      simp [List.filter_cons, h, hne]

/-- C4 amended: the per-participant total is the `float64` accumulation, in
assignment order, of that participant's per-item major-unit allocations —
the summation is not performed in integer minor units, and (see the
counterexample) the result can differ from the single conversion of the
minor-unit sum by floating-point rounding. -/
theorem userTotal_eq_fold_allocations (items : List ReceiptItem)
    (as : List ReceiptUserItem) (u : String) :
    (ComputeBillSplit items as).UserTotal u =
      ((as.filter fun a => decide (a.ReceiptUserID = u)).map fun a =>
        (ComputeBillSplit items as).AmountByUserItem
          (a.ReceiptUserID ++ ":" ++ a.ReceiptItemID)).foldl fadd 0 := by
  show userTotal items as u = _
  unfold userTotal
  rw [userTotal_foldl]
  rfl

/-- C7 counterexample: with quantity 49 and total price 1.00, the derived
per-item price is the `float64` quotient `1/49`, and the product
`price_per_item * quantity` — exact or in `float64` — is not the total
1.00: the derivation does not establish `total_price == price_per_item * q`
when the per-item price is the derived field. -/
theorem convertReceiptItems_derivation_cex :
    convertReceiptItems [⟨"Water", 49, some 1, none⟩] =
        .ok [⟨"Water", 49, 1, fdiv 1 49⟩] ∧
      fdiv 1 49 * 49 ≠ (1 : ℚ) ∧ fmul (fdiv 1 49) 49 ≠ (1 : ℚ) := by decide

/-- C7 amended: for a valid item with exactly one price field supplied, the
missing field is derived in `float64` arithmetic — missing total as
`fmul pricePerItem quantity` (so `total == per * q` holds exactly in that
direction), missing per-item price as `fdiv totalPrice quantity` (where
`total == per * q` holds only up to a float rounding; see the
counterexample). The spec's two concrete instances hold: quantity 2 at 3.50
derives total 7.00, and quantity 1 with total 8.99 derives per-item 8.99. -/
theorem convertReceiptItems_derivation (name : String) (q : Int) (v : ℚ)
    (hn : name ≠ "") (hq : 0 < q) :
    convertReceiptItems [⟨name, q, none, some v⟩] =
        .ok [⟨name, q, fmul v (q : ℚ), v⟩] ∧
      convertReceiptItems [⟨name, q, some v, none⟩] =
        .ok [⟨name, q, v, fdiv v (q : ℚ)⟩] ∧
      convertReceiptItems [⟨"A", 2, none, some (7 / 2)⟩] = .ok [⟨"A", 2, 7, 7 / 2⟩] ∧
      convertReceiptItems [⟨"B", 1, some (fl (899 / 100)), none⟩] =
        .ok [⟨"B", 1, fl (899 / 100), fl (899 / 100)⟩] := by
  have hq2 : ¬ q ≤ 0 := not_le.mpr hq
  refine ⟨?_, ?_, by decide, by decide⟩ <;>
    simp [convertReceiptItems, convertItemsFrom, hn, hq2]

/-- Witness for `convertReceiptItems_derivation` at ("Soup", 3, 5). -/
theorem convertReceiptItems_derivation_witness :
    ("Soup" ≠ "" ∧ (0 : ℤ) < 3) ∧
      (convertReceiptItems [⟨"Soup", 3, none, some 5⟩] =
          .ok [⟨"Soup", 3, fmul 5 (3 : ℚ), 5⟩] ∧
        convertReceiptItems [⟨"Soup", 3, some 5, none⟩] =
          .ok [⟨"Soup", 3, 5, fdiv 5 (3 : ℚ)⟩] ∧
        convertReceiptItems [⟨"A", 2, none, some (7 / 2)⟩] = .ok [⟨"A", 2, 7, 7 / 2⟩] ∧
        convertReceiptItems [⟨"B", 1, some (fl (899 / 100)), none⟩] =
          .ok [⟨"B", 1, fl (899 / 100), fl (899 / 100)⟩]) :=
  ⟨⟨by decide, by decide⟩,
    convertReceiptItems_derivation "Soup" 3 5 (by decide) (by decide)⟩

/-- C8 at its failing input: assigning the same (participant, item) pair
twice with custom amounts 5 then 6. The first call succeeds; the upsert of
the second call leaves exactly one assignment row for the pair, holding the
latest amount 6 — but the second call itself returns an error, because the
post-insert re-read looks up the fresh ULID, which the conflict path never
inserted. The claim's "the assign operation succeeds both times" fails. -/
theorem AssignItemToUser_twice :
    (AssignItemToUser c8Db "A1" "u1" "i1" (some 5)).2 = .ok ⟨"A1", "u1", "i1", some 5⟩ ∧
      (AssignItemToUser (AssignItemToUser c8Db "A1" "u1" "i1" (some 5)).1
          "A2" "u1" "i1" (some 6)).2 = .error .readBackFailed ∧
      ((AssignItemToUser (AssignItemToUser c8Db "A1" "u1" "i1" (some 5)).1
            "A2" "u1" "i1" (some 6)).1.assignments.filter
          fun a => a.ReceiptUserID == "u1" && a.ReceiptItemID == "i1")
        = [⟨"A1", "u1", "i1", some 6⟩] := by decide

/-- C9 at its failing input: assigning with a participant ID that does not
exist. The verify SELECT still returns one row, with a NULL user receipt
id; the scan fails, and the call returns the generic verification error —
not the claimed not-found error — with the state unchanged, so no record
is created. The cross-receipt half of the claim does behave as stated: a
participant of receipt r1 with an item of receipt r2 is rejected with the
cross-receipt error, again with the state unchanged. -/
theorem AssignItemToUser_missing_user :
    AssignItemToUser c9Db "A1" "ghost" "i1" none = (c9Db, .error .verifyFailed) ∧
      (AssignItemToUser c9Db "A1" "ghost" "i1" none).2 ≠ .error .notFound ∧
      AssignItemToUser c9Db "A1" "u1" "i2" (some 3) = (c9Db, .error .crossReceipt) := by
  decide

/-- The `itemUserOrder` fold only reads the user and item IDs, so it is
unchanged when the amounts change. -/
lemma itemUserOrder_fold_congr :
    ∀ (as bs : List ReceiptUserItem), as.map stripAmount = bs.map stripAmount →
      ∀ m : String → List String,
        (as.foldl (fun m a => fun id =>
          if id = a.ReceiptItemID then m id ++ [a.ReceiptUserID] else m id) m)
        = (bs.foldl (fun m a => fun id =>
          if id = a.ReceiptItemID then m id ++ [a.ReceiptUserID] else m id) m)
  | [], [], _, _ => rfl
  | [], _ :: _, h, _ => by simp [stripAmount] at h
  | _ :: _, [], h, _ => by simp [stripAmount] at h
  | a :: as, b :: bs, h, m => by
    simp only [List.map_cons, List.cons.injEq] at h
    obtain ⟨h1, h2⟩ := h
    simp only [stripAmount, Prod.mk.injEq] at h1
    rw [List.foldl_cons, List.foldl_cons, h1.2.1, h1.2.2]
    exact itemUserOrder_fold_congr as bs h2 _

/-- The `userTotal` fold only reads the user and item IDs and a fixed
amount map, so it is unchanged when the amounts change. -/
lemma userTotal_fold_congr (amt : String → ℚ) :
    ∀ (as bs : List ReceiptUserItem), as.map stripAmount = bs.map stripAmount →
      ∀ m : String → ℚ,
        (as.foldl (fun m a => fun u =>
          if u = a.ReceiptUserID then
            fadd (m a.ReceiptUserID) (amt (a.ReceiptUserID ++ ":" ++ a.ReceiptItemID))
          else m u) m)
        = (bs.foldl (fun m a => fun u =>
          if u = a.ReceiptUserID then
            fadd (m a.ReceiptUserID) (amt (a.ReceiptUserID ++ ":" ++ a.ReceiptItemID))
          else m u) m)
  | [], [], _, _ => rfl
  | [], _ :: _, h, _ => by simp [stripAmount] at h
  | _ :: _, [], h, _ => by simp [stripAmount] at h
  | a :: as, b :: bs, h, m => by
    simp only [List.map_cons, List.cons.injEq] at h
    obtain ⟨h1, h2⟩ := h
    simp only [stripAmount, Prod.mk.injEq] at h1
    rw [List.foldl_cons, List.foldl_cons, h1.2.1, h1.2.2]
    exact userTotal_fold_congr amt as bs h2 _

/-- C10 (custom-amount noninterference): two runs of `ComputeBillSplit` on
inputs identical except for the assignments' `AmountOwed` fields produce
identical per-(user, item) allocations and per-user totals — the stored
custom amount is never read by the split arithmetic. -/
theorem ComputeBillSplit_ignores_amountOwed (items : List ReceiptItem)
    (as bs : List ReceiptUserItem) (h : as.map stripAmount = bs.map stripAmount) :
    ComputeBillSplit items as = ComputeBillSplit items bs := by
  have horder : itemUserOrder as = itemUserOrder bs :=
    itemUserOrder_fold_congr as bs h _
  have hiid : as.map (fun a => a.ReceiptItemID) = bs.map (fun a => a.ReceiptItemID) := by
    have := congrArg (List.map (fun p : String × String × String => p.2.2)) h
    simpa [List.map_map, stripAmount, Function.comp] using this
  have hkeys : itemKeys as = itemKeys bs := by
    unfold itemKeys
    rw [hiid]
  have hA : amountByUserItem items as = amountByUserItem items bs := by
    unfold amountByUserItem allWrites
    rw [hkeys, horder]
  have hU : userTotal items as = userTotal items bs := by
    unfold userTotal
    rw [hA, userTotal_fold_congr (amountByUserItem items bs) as bs h]
  show BillSplitResult.mk _ _ = BillSplitResult.mk _ _
  rw [hA, hU]

/-- Witness for `ComputeBillSplit_ignores_amountOwed`: storing custom
amounts 9.99/0.01 changes nothing in the computed split. -/
theorem ComputeBillSplit_ignores_amountOwed_witness :
    c10As.map stripAmount = c10Bs.map stripAmount ∧
      ComputeBillSplit c10Items c10As = ComputeBillSplit c10Items c10Bs :=
  ⟨by decide, ComputeBillSplit_ignores_amountOwed c10Items c10As c10Bs (by decide)⟩
